import Mathlib

/-
Verification development for the questrade-ynab command-line tool.

The Go sources are shallowly embedded as Lean functions:
* network I/O is made explicit by passing the outcome of each HTTP
  exchange (transport failure, status code, parsed-or-unparsable body)
  as an argument;
* `time.Now()` is passed as an integer `now` (seconds);
* Go `float64` amounts are modelled as exact rationals `ℚ` (the claims
  under study concern the structure of the computations, not binary
  floating-point rounding);
* interactive prompts are passed as the strings the user typed;
* the side effects of a run (network calls, prompts, persistence
  writes) are returned as an ordered trace of events.
-/

deriving instance DecidableEq for Except

namespace QYnab

/-! ## String helpers (models of Go `strings` functions) -/

/-- Model of Go `strings.TrimSpace`: drop whitespace from both ends. -/
def trimSpace (s : String) : String :=
  ⟨((s.data.dropWhile Char.isWhitespace).reverse.dropWhile Char.isWhitespace).reverse⟩

/-- Model of Go `strings.ToLower`, restricted to ASCII letters (the
bodies compared against the ASCII patterns "invalid" and "access"). -/
def strToLower (s : String) : String :=
  ⟨s.data.map Char.toLower⟩

/-- `listStartsWith pat l` is true when `l` starts with `pat`. -/
def listStartsWith : List Char → List Char → Bool
  | [], _ => true
  | _ :: _, [] => false
  | p :: ps, c :: cs => p == c && listStartsWith ps cs

/-- `listHasSubstring pat l` is true when `pat` occurs contiguously in `l`. -/
def listHasSubstring (pat : List Char) : List Char → Bool
  | [] => pat.isEmpty
  | c :: cs => listStartsWith pat (c :: cs) || listHasSubstring pat cs

/-- Model of Go `strings.Contains s pat`. -/
def strContainsSub (s pat : String) : Bool :=
  listHasSubstring pat.data s.data

/-! ## Data model of `internal/questrade/client.go` -/

/-- The mutable fields of `questrade.Client` (the `http.Client` handle is
part of the transport, which is passed explicitly to each operation). -/
structure Client where
  refreshToken : String
  accessToken : String
  apiServer : String
  expiresAt : Int
deriving DecidableEq

/-- `questrade.TokenResponse`: the parsed JSON body of a refresh reply. -/
structure TokenResponse where
  accessToken : String
  tokenType : String
  expiresIn : Int
  refreshToken : String
  apiServer : String
deriving DecidableEq

/-- `questrade.NewClient`: only the refresh token is set. -/
def NewClient (refreshToken : String) : Client :=
  { refreshToken := refreshToken, accessToken := "", apiServer := "", expiresAt := 0 }

/-- `Client.SetAccessToken`: load a cached token; expiry is `now + expiresIn`. -/
def SetAccessToken (c : Client) (accessToken apiServer : String) (expiresIn : Int)
    (now : Int) : Client :=
  { c with accessToken := accessToken, apiServer := apiServer, expiresAt := now + expiresIn }

/-- Outcome of the HTTP exchange performed by `Client.Refresh`:
a transport error, or a status code together with the parse attempt of
the body (`none` when `json.Unmarshal` fails). -/
inductive RefreshHttp
  | transportError
  | response (status : Nat) (parsed : Option TokenResponse)
deriving DecidableEq

/-- The failure cases of `Client.Refresh`. -/
inductive RefreshErr
  | transport
  | badStatus (status : Nat)
  | parseFailed
  | noAccessToken
deriving DecidableEq

/-- Model of `Client.Refresh` (client.go lines 79-127).  The checks run
in source order: transport error, non-200 status, unparsable body,
empty `access_token`; only after all of them pass are the client fields
overwritten (`refreshToken` only when the response carries one). -/
def Refresh (c : Client) (h : RefreshHttp) (now : Int) :
    Client × Except RefreshErr TokenResponse :=
  match h with
  | .transportError => (c, .error .transport)
  | .response status parsed =>
    if status ≠ 200 then (c, .error (.badStatus status))
    else
      match parsed with
      | none => (c, .error .parseFailed)
      | some tr =>
        if tr.accessToken = "" then (c, .error .noAccessToken)
        else
          ({ refreshToken := if tr.refreshToken ≠ "" then tr.refreshToken else c.refreshToken,
             accessToken := tr.accessToken,
             apiServer := tr.apiServer,
             expiresAt := now + tr.expiresIn }, .ok tr)

/-- True exactly when the refresh HTTP outcome makes `Refresh` succeed:
status 200, parsable body, non-empty `access_token`. -/
def refreshSucceeds : RefreshHttp → Bool
  | .transportError => false
  | .response _ none => false
  | .response status (some tr) => status == 200 && tr.accessToken ≠ ""

/-- Outcome of the HTTP exchange performed by `Client.IsAccessTokenValid`. -/
inductive ValHttp
  | transportError
  | response (status : Nat) (body : String)
deriving DecidableEq

/-- The error cases of `Client.IsAccessTokenValid`. -/
inductive ValErr
  | transport
  | unexpectedStatus (status : Nat) (body : String)
deriving DecidableEq

/-- Model of `Client.IsAccessTokenValid` (client.go lines 168-202):
empty token or server short-circuits to `(false, nil)`; otherwise
200 ⇒ valid, 401 ⇒ invalid, a body containing both "invalid" and
"access" after lowercasing ⇒ invalid, anything else ⇒ error. -/
def IsAccessTokenValid (accessToken apiServer : String) (h : ValHttp) :
    Except ValErr Bool :=
  if accessToken = "" ∨ apiServer = "" then .ok false
  else
    match h with
    | .transportError => .error .transport
    | .response status body =>
      if status = 200 then .ok true
      else if status = 401 then .ok false
      else
        if strContainsSub (strToLower body) "invalid"
            && strContainsSub (strToLower body) "access" then .ok false
        else .error (.unexpectedStatus status body)

/-! ## Basic lemmas about `Refresh` -/

/-- When the HTTP outcome is not a success, `Refresh` leaves the client
untouched and reports the corresponding error. -/
theorem Refresh_fail (c : Client) (h : RefreshHttp) (now : Int)
    (hf : refreshSucceeds h = false) :
    ∃ e, Refresh c h now = (c, .error e) := by
  cases h with
  | transportError => exact ⟨.transport, rfl⟩
  | response status parsed =>
    by_cases hs : status = 200
    · subst hs
      cases parsed with
      | none => exact ⟨.parseFailed, by simp [Refresh]⟩
      | some tr =>
        have hta : tr.accessToken = "" := by
          by_contra hta
          simp [refreshSucceeds, hta] at hf
        exact ⟨.noAccessToken, by simp [Refresh, hta]⟩
    · exact ⟨.badStatus status, by simp [Refresh, hs]⟩

/-- When the HTTP outcome is a success, `Refresh` returns `.ok` with the
parsed response and the overwritten client. -/
theorem Refresh_ok (c : Client) (tr : TokenResponse) (now : Int)
    (hta : tr.accessToken ≠ "") :
    Refresh c (.response 200 (some tr)) now =
      ({ refreshToken := if tr.refreshToken ≠ "" then tr.refreshToken else c.refreshToken,
         accessToken := tr.accessToken,
         apiServer := tr.apiServer,
         expiresAt := now + tr.expiresIn }, .ok tr) := by
  simp [Refresh, hta]

/-- `Refresh` succeeds exactly on the outcomes described by `refreshSucceeds`. -/
theorem Refresh_isOk_iff (c : Client) (h : RefreshHttp) (now : Int) :
    (Refresh c h now).2.isOk = refreshSucceeds h := by
  cases h with
  | transportError => rfl
  | response status parsed =>
    by_cases hs : status = 200
    · subst hs
      cases parsed with
      | none => rfl
      | some tr =>
        by_cases hta : tr.accessToken = ""
        · simp [Refresh, refreshSucceeds, hta, Except.isOk, Except.toBool]
        · simp [Refresh, refreshSucceeds, hta, Except.isOk, Except.toBool]
    · have hrs : refreshSucceeds (.response status parsed) = false := by
        cases parsed with
        | none => rfl
        | some tr => simp [refreshSucceeds, hs]
      rw [hrs]
      simp [Refresh, hs, Except.isOk, Except.toBool]

/-! ## Model of the credential-acquisition operation
(`ensureValidQuestradeClient`, config.go lines 275-347; `auth login`,
auth.go lines 104-207, follows the same control flow). -/

/-- The cached configuration values read from `config.json` / viper. -/
structure Config where
  refreshToken : String
  accessToken : String
  apiServer : String
  expiresIn : Int
deriving DecidableEq

/-- The cached credential is complete: non-empty access token and api
server, positive `expires_in` (the guard at config.go line 306). -/
def cachedPresent (cfg : Config) : Prop :=
  cfg.accessToken ≠ "" ∧ cfg.apiServer ≠ "" ∧ cfg.expiresIn > 0

instance (cfg : Config) : Decidable (cachedPresent cfg) := by
  unfold cachedPresent; infer_instance

/-- Observable side effects of one run, in order of occurrence. -/
inductive Event
  | validateCall
  | refreshCall (refreshToken : String)
  | promptInitial
  | promptRecovery
  | persist (refreshToken accessToken apiServer : String) (expiresIn : Int)
deriving DecidableEq

def Event.isRefreshCall : Event → Bool
  | .refreshCall _ => true
  | _ => false

def Event.isPromptRecovery : Event → Bool
  | .promptRecovery => true
  | _ => false

def Event.isNetworkCall : Event → Bool
  | .validateCall => true
  | .refreshCall _ => true
  | _ => false

/-- The ways the operation can fail (both failures return
`fmt.Errorf("no refresh token provided")` resp. the wrapped refresh
error; there is no validation-specific failure in the code). -/
inductive EnsureErr
  | noRefreshToken
  | refreshFailed
deriving DecidableEq

/-- The refresh-or-recover tail of the operation (config.go lines
313-346): one refresh attempt; on failure one recovery prompt; an empty
prompted token is fatal, a non-empty one is persisted and used for
exactly one further refresh attempt. -/
def refreshPhase (qClient : Client) (promptRec : String) (r1 r2 : RefreshHttp)
    (now : Int) : Except EnsureErr Client × List Event :=
  match Refresh qClient r1 now with
  | (q1, .ok tr) =>
    (.ok q1, [.refreshCall qClient.refreshToken,
              .persist tr.refreshToken tr.accessToken tr.apiServer tr.expiresIn])
  | (_, .error _) =>
    let rt := trimSpace promptRec
    if rt = "" then
      (.error .noRefreshToken, [.refreshCall qClient.refreshToken, .promptRecovery])
    else
      match Refresh (NewClient rt) r2 now with
      | (q2, .ok tr2) =>
        (.ok q2, [.refreshCall qClient.refreshToken, .promptRecovery,
                  .persist rt "" "" 0, .refreshCall rt,
                  .persist tr2.refreshToken tr2.accessToken tr2.apiServer tr2.expiresIn])
      | (_, .error _) =>
        (.error .refreshFailed, [.refreshCall qClient.refreshToken, .promptRecovery,
                                 .persist rt "" "" 0, .refreshCall rt])

/-- The operation once a refresh token is in hand (config.go lines
303-346): live validation of a complete cached credential, falling
through to `refreshPhase` unless the endpoint affirmed validity. -/
def afterToken (refreshToken : String) (cfg : Config) (promptRec : String)
    (valHttp : ValHttp) (r1 r2 : RefreshHttp) (now : Int) :
    Except EnsureErr Client × List Event :=
  if cachedPresent cfg then
    let qc := SetAccessToken (NewClient refreshToken) cfg.accessToken cfg.apiServer
      cfg.expiresIn now
    match IsAccessTokenValid cfg.accessToken cfg.apiServer valHttp with
    | .ok true => (.ok qc, [.validateCall])
    | _ =>
      let r := refreshPhase qc promptRec r1 r2 now
      (r.1, .validateCall :: r.2)
  else
    refreshPhase (NewClient refreshToken) promptRec r1 r2 now

/-- Model of `ensureValidQuestradeClient` (config.go lines 275-347).
`promptInit` is what the user types at the initial refresh-token
prompt, `promptRec` at the recovery prompt; `valHttp`, `r1`, `r2` are
the outcomes of the validation call and of the at most two refresh
calls, in order. -/
def ensureValidQuestradeClient (cfg : Config) (promptInit promptRec : String)
    (valHttp : ValHttp) (r1 r2 : RefreshHttp) (now : Int) :
    Except EnsureErr Client × List Event :=
  if cfg.refreshToken = "" then
    let rt := trimSpace promptInit
    if rt = "" then (.error .noRefreshToken, [.promptInitial])
    else
      let r := afterToken rt cfg promptRec valHttp r1 r2 now
      (r.1, .promptInitial :: .persist rt "" "" 0 :: r.2)
  else
    afterToken cfg.refreshToken cfg promptRec valHttp r1 r2 now

/-- A run can acquire a refresh token: one is cached, or the user
supplies a non-empty one at the initial prompt. -/
def tokenAvailable (cfg : Config) (promptInit : String) : Prop :=
  cfg.refreshToken ≠ "" ∨ trimSpace promptInit ≠ ""

instance (cfg : Config) (promptInit : String) :
    Decidable (tokenAvailable cfg promptInit) := by
  unfold tokenAvailable; infer_instance

/-! ## Structural lemmas about the credential-acquisition run -/

/-- A successful refresh outcome is a 200 response whose parsed body has
a non-empty access token. -/
theorem refreshSucceeds_true_iff (h : RefreshHttp) :
    refreshSucceeds h = true ↔
      ∃ tr, h = .response 200 (some tr) ∧ tr.accessToken ≠ "" := by
  cases h with
  | transportError => simp [refreshSucceeds]
  | response status parsed =>
    cases parsed with
    | none => simp [refreshSucceeds]
    | some tr =>
      constructor
      · intro hs
        simp only [refreshSucceeds, Bool.and_eq_true, beq_iff_eq] at hs
        refine ⟨tr, ?_, ?_⟩
        · rw [hs.1]
        · simpa using hs.2
      · rintro ⟨tr2, htr, hta⟩
        injection htr with h1 h2
        injection h2 with h2
        subst h1; subst h2
        simp [refreshSucceeds, hta]

/-- First failing refresh, empty recovery prompt: fatal missing
credential, a single refresh call, one recovery prompt. -/
theorem refreshPhase_fail_empty (qc : Client) (pR : String) (r1 r2 : RefreshHttp)
    (now : Int) (hf1 : refreshSucceeds r1 = false) (hpr : trimSpace pR = "") :
    refreshPhase qc pR r1 r2 now =
      (.error .noRefreshToken, [.refreshCall qc.refreshToken, .promptRecovery]) := by
  obtain ⟨e, he⟩ := Refresh_fail qc r1 now hf1
  unfold refreshPhase
  rw [he]
  simp [hpr]

/-- First refresh fails, non-empty recovery prompt, retry also fails:
fatal, two refresh calls (the second with the prompted token, after it
was persisted), one recovery prompt. -/
theorem refreshPhase_fail_fail (qc : Client) (pR : String) (r1 r2 : RefreshHttp)
    (now : Int) (hf1 : refreshSucceeds r1 = false) (hpr : trimSpace pR ≠ "")
    (hf2 : refreshSucceeds r2 = false) :
    refreshPhase qc pR r1 r2 now =
      (.error .refreshFailed,
       [.refreshCall qc.refreshToken, .promptRecovery,
        .persist (trimSpace pR) "" "" 0, .refreshCall (trimSpace pR)]) := by
  obtain ⟨e, he⟩ := Refresh_fail qc r1 now hf1
  obtain ⟨e2, he2⟩ := Refresh_fail (NewClient (trimSpace pR)) r2 now hf2
  unfold refreshPhase
  rw [he]
  simp only [hpr, if_neg hpr]
  rw [he2]
  simp

/-- First refresh fails, non-empty recovery prompt, retry succeeds. -/
theorem refreshPhase_fail_ok (qc : Client) (pR : String) (r1 r2 : RefreshHttp)
    (now : Int) (tr2 : TokenResponse)
    (hf1 : refreshSucceeds r1 = false) (hpr : trimSpace pR ≠ "")
    (hr2 : r2 = .response 200 (some tr2)) (hta : tr2.accessToken ≠ "") :
    refreshPhase qc pR r1 r2 now =
      (.ok (Refresh (NewClient (trimSpace pR)) r2 now).1,
       [.refreshCall qc.refreshToken, .promptRecovery,
        .persist (trimSpace pR) "" "" 0, .refreshCall (trimSpace pR),
        .persist tr2.refreshToken tr2.accessToken tr2.apiServer tr2.expiresIn]) := by
  obtain ⟨e, he⟩ := Refresh_fail qc r1 now hf1
  have hok := Refresh_ok (NewClient (trimSpace pR)) tr2 now hta
  unfold refreshPhase
  rw [he]
  simp only [hpr, if_neg hpr]
  rw [hr2, hok]
  simp

/-- The trace of the refresh phase starts with the first refresh call
and never contains a validation call. -/
theorem refreshPhase_trace (qc : Client) (pR : String) (r1 r2 : RefreshHttp)
    (now : Int) :
    ∃ tail, (refreshPhase qc pR r1 r2 now).2 =
        Event.refreshCall qc.refreshToken :: tail ∧
      Event.validateCall ∉ (refreshPhase qc pR r1 r2 now).2 := by
  unfold refreshPhase
  rcases hr : Refresh qc r1 now with ⟨q1, res1⟩
  cases res1 with
  | ok tr => exact ⟨_, rfl, by simp⟩
  | error e =>
    by_cases hpr : trimSpace pR = ""
    · simp only [hpr, if_pos rfl]
      exact ⟨_, rfl, by simp⟩
    · simp only [if_neg hpr]
      rcases hr2 : Refresh (NewClient (trimSpace pR)) r2 now with ⟨q2, res2⟩
      cases res2 with
      | ok tr2 => exact ⟨_, rfl, by simp⟩
      | error e2 => exact ⟨_, rfl, by simp⟩

/-- A 401 validation response is never affirmed valid. -/
theorem isValid_401_ne_ok_true (a s : String) :
    IsAccessTokenValid a s (.response 401 "") ≠ .ok true := by
  unfold IsAccessTokenValid
  by_cases h : a = "" ∨ s = ""
  · simp [h]
  · simp [h]

/-- `afterToken` when the cached credential is complete and the live
check affirms validity: return the cached client, no further calls. -/
theorem afterToken_valid (rt : String) (cfg : Config) (pR : String)
    (v : ValHttp) (r1 r2 : RefreshHttp) (now : Int)
    (hc : cachedPresent cfg)
    (hv : IsAccessTokenValid cfg.accessToken cfg.apiServer v = .ok true) :
    afterToken rt cfg pR v r1 r2 now =
      (.ok (SetAccessToken (NewClient rt) cfg.accessToken cfg.apiServer cfg.expiresIn now),
       [.validateCall]) := by
  unfold afterToken
  rw [if_pos hc, hv]

/-- `afterToken` when the cached credential is complete but the live
check did not affirm validity (invalid verdict or indeterminate error):
fall through to the refresh phase. -/
theorem afterToken_notValid (rt : String) (cfg : Config) (pR : String)
    (v : ValHttp) (r1 r2 : RefreshHttp) (now : Int)
    (hc : cachedPresent cfg)
    (hv : IsAccessTokenValid cfg.accessToken cfg.apiServer v ≠ .ok true) :
    afterToken rt cfg pR v r1 r2 now =
      ((refreshPhase (SetAccessToken (NewClient rt) cfg.accessToken cfg.apiServer
          cfg.expiresIn now) pR r1 r2 now).1,
       .validateCall :: (refreshPhase (SetAccessToken (NewClient rt) cfg.accessToken
          cfg.apiServer cfg.expiresIn now) pR r1 r2 now).2) := by
  unfold afterToken
  rw [if_pos hc]
  cases hval : IsAccessTokenValid cfg.accessToken cfg.apiServer v with
  | ok b =>
    cases b with
    | true => exact absurd hval hv
    | false => rfl
  | error e => rfl

/-- `afterToken` with an incomplete cached credential: straight to the
refresh phase, no validation. -/
theorem afterToken_nocache (rt : String) (cfg : Config) (pR : String)
    (v : ValHttp) (r1 r2 : RefreshHttp) (now : Int)
    (hc : ¬ cachedPresent cfg) :
    afterToken rt cfg pR v r1 r2 now = refreshPhase (NewClient rt) pR r1 r2 now := by
  unfold afterToken
  rw [if_neg hc]

/-- With a cached refresh token the operation is `afterToken` directly. -/
theorem ensure_cachedToken (cfg : Config) (pI pR : String) (v : ValHttp)
    (r1 r2 : RefreshHttp) (now : Int) (h0 : cfg.refreshToken ≠ "") :
    ensureValidQuestradeClient cfg pI pR v r1 r2 now =
      afterToken cfg.refreshToken cfg pR v r1 r2 now := by
  unfold ensureValidQuestradeClient
  rw [if_neg h0]

/-- Without a cached refresh token and with a non-empty prompted token,
the operation prompts, persists the token and continues as `afterToken`. -/
theorem ensure_promptedToken (cfg : Config) (pI pR : String) (v : ValHttp)
    (r1 r2 : RefreshHttp) (now : Int) (h0 : cfg.refreshToken = "")
    (hne : trimSpace pI ≠ "") :
    ensureValidQuestradeClient cfg pI pR v r1 r2 now =
      ((afterToken (trimSpace pI) cfg pR v r1 r2 now).1,
       .promptInitial :: .persist (trimSpace pI) "" "" 0 ::
         (afterToken (trimSpace pI) cfg pR v r1 r2 now).2) := by
  unfold ensureValidQuestradeClient
  rw [if_pos h0]
  simp only [if_neg hne]

/-- Without a cached refresh token and with an empty prompted token the
operation aborts at once. -/
theorem ensure_noToken (cfg : Config) (pI pR : String) (v : ValHttp)
    (r1 r2 : RefreshHttp) (now : Int) (h0 : cfg.refreshToken = "")
    (he : trimSpace pI = "") :
    ensureValidQuestradeClient cfg pI pR v r1 r2 now =
      (.error .noRefreshToken, [.promptInitial]) := by
  unfold ensureValidQuestradeClient
  rw [if_pos h0]
  simp [he]

/-- Per-constructor values of the event discriminators, for `simp`. -/
theorem isNetworkCall_eval :
    Event.isNetworkCall .validateCall = true ∧
    (∀ rt, Event.isNetworkCall (.refreshCall rt) = true) ∧
    Event.isNetworkCall .promptInitial = false ∧
    Event.isNetworkCall .promptRecovery = false ∧
    (∀ a b c d, Event.isNetworkCall (.persist a b c d) = false) :=
  ⟨rfl, fun _ => rfl, rfl, rfl, fun _ _ _ _ => rfl⟩

/-- The trace of `afterToken` contains a validation call exactly when
the cached credential is complete; when made, the validation call
precedes every refresh call; otherwise the first network call is a
refresh call. -/
theorem afterToken_c2 (rt : String) (cfg : Config) (pR : String)
    (v : ValHttp) (r1 r2 : RefreshHttp) (now : Int) :
    (Event.validateCall ∈ (afterToken rt cfg pR v r1 r2 now).2 ↔ cachedPresent cfg) ∧
    (cachedPresent cfg → ∃ rest,
      (afterToken rt cfg pR v r1 r2 now).2.filter Event.isNetworkCall =
        .validateCall :: rest ∧ Event.validateCall ∉ rest) ∧
    (¬ cachedPresent cfg → ∃ rt2 rest,
      (afterToken rt cfg pR v r1 r2 now).2.filter Event.isNetworkCall =
        .refreshCall rt2 :: rest) := by
  by_cases hc : cachedPresent cfg
  · by_cases hv : IsAccessTokenValid cfg.accessToken cfg.apiServer v = .ok true
    · rw [afterToken_valid rt cfg pR v r1 r2 now hc hv]
      refine ⟨by simp [hc], fun _ => ⟨[], rfl, by simp⟩,
        fun h => absurd hc h⟩
    · rw [afterToken_notValid rt cfg pR v r1 r2 now hc hv]
      obtain ⟨tail, htail, hnoval⟩ := refreshPhase_trace
        (SetAccessToken (NewClient rt) cfg.accessToken cfg.apiServer cfg.expiresIn now)
        pR r1 r2 now
      refine ⟨by simp [hc], fun _ => ?_, fun h => absurd hc h⟩
      refine ⟨(refreshPhase (SetAccessToken (NewClient rt) cfg.accessToken cfg.apiServer
        cfg.expiresIn now) pR r1 r2 now).2.filter Event.isNetworkCall, ?_, ?_⟩
      · simp [List.filter_cons, Event.isNetworkCall]
      · intro hmem
        exact hnoval (List.mem_filter.mp hmem).1
  · rw [afterToken_nocache rt cfg pR v r1 r2 now hc]
    obtain ⟨tail, htail, hnoval⟩ := refreshPhase_trace (NewClient rt) pR r1 r2 now
    refine ⟨by simp [hc, hnoval], fun h => absurd h hc, fun _ => ?_⟩
    refine ⟨(NewClient rt).refreshToken, tail.filter Event.isNetworkCall, ?_⟩
    rw [htail]
    simp [List.filter_cons, Event.isNetworkCall]

/-- Claim C1 counterexample: with a complete cached credential
(`refresh "r"`, access "a", server "s", expires 60) and an
indeterminate validation outcome (status 500, body "boom" — classified
as an error by `IsAccessTokenValid`), the operation does NOT abort: it
calls the refresh endpoint and overwrites the credential with the
refresh response, contradicting the claim that the run aborts with a
`ValidationError`, makes no refresh call and leaves the credential
unchanged. -/
theorem c1_counterexample :
    IsAccessTokenValid "a" "s" (.response 500 "boom") =
      .error (.unexpectedStatus 500 "boom") ∧
    Event.refreshCall "r" ∈
      (ensureValidQuestradeClient ⟨"r", "a", "s", 60⟩ "" ""
        (.response 500 "boom")
        (.response 200 (some ⟨"na", "Bearer", 1800, "nr", "api"⟩))
        .transportError 0).2 ∧
    (ensureValidQuestradeClient ⟨"r", "a", "s", 60⟩ "" ""
        (.response 500 "boom")
        (.response 200 (some ⟨"na", "Bearer", 1800, "nr", "api"⟩))
        .transportError 0).1 = .ok ⟨"nr", "na", "api", 1800⟩ := by
  decide

/-- Claim C1 (amended): if the cached credential is present and the
live validation call returns an indeterminate error, the
credential-acquisition operation does not abort: it treats the token
exactly like an invalid one and proceeds to the refresh path (the run
is identical to one whose validation returned 401), and — whenever a
refresh token is available — a call to the refresh endpoint is made. -/
theorem c1_indeterminate_validation_proceeds_to_refresh
    (cfg : Config) (pI pR : String) (valHttp : ValHttp) (r1 r2 : RefreshHttp)
    (now : Int) (e : ValErr)
    (hc : cachedPresent cfg)
    (he : IsAccessTokenValid cfg.accessToken cfg.apiServer valHttp = .error e) :
    ensureValidQuestradeClient cfg pI pR valHttp r1 r2 now =
      ensureValidQuestradeClient cfg pI pR (.response 401 "") r1 r2 now ∧
    (tokenAvailable cfg pI →
      ∃ rt, Event.refreshCall rt ∈
        (ensureValidQuestradeClient cfg pI pR valHttp r1 r2 now).2) := by
  have hne : IsAccessTokenValid cfg.accessToken cfg.apiServer valHttp ≠ .ok true := by
    rw [he]; intro hcontra; cases hcontra
  have h401 := isValid_401_ne_ok_true cfg.accessToken cfg.apiServer
  have hAfter : ∀ rt, afterToken rt cfg pR valHttp r1 r2 now =
      afterToken rt cfg pR (.response 401 "") r1 r2 now := by
    intro rt
    rw [afterToken_notValid rt cfg pR valHttp r1 r2 now hc hne,
      afterToken_notValid rt cfg pR (.response 401 "") r1 r2 now hc h401]
  have hMem : ∀ rt, ∃ rt2, Event.refreshCall rt2 ∈ (afterToken rt cfg pR valHttp r1 r2 now).2 := by
    intro rt
    rw [afterToken_notValid rt cfg pR valHttp r1 r2 now hc hne]
    obtain ⟨tail, htail, _⟩ := refreshPhase_trace
      (SetAccessToken (NewClient rt) cfg.accessToken cfg.apiServer cfg.expiresIn now)
      pR r1 r2 now
    rw [htail]
    refine ⟨(SetAccessToken (NewClient rt) cfg.accessToken cfg.apiServer
      cfg.expiresIn now).refreshToken, ?_⟩
    simp
  by_cases h0 : cfg.refreshToken = ""
  · by_cases hpi : trimSpace pI = ""
    · refine ⟨?_, ?_⟩
      · rw [ensure_noToken cfg pI pR valHttp r1 r2 now h0 hpi,
          ensure_noToken cfg pI pR (.response 401 "") r1 r2 now h0 hpi]
      · intro hTok
        exact absurd hpi (hTok.resolve_left (by simp [h0]))
    · rw [ensure_promptedToken cfg pI pR valHttp r1 r2 now h0 hpi,
        ensure_promptedToken cfg pI pR (.response 401 "") r1 r2 now h0 hpi,
        hAfter (trimSpace pI)]
      refine ⟨rfl, fun _ => ?_⟩
      obtain ⟨rt2, hrt2⟩ := hMem (trimSpace pI)
      rw [hAfter (trimSpace pI)] at hrt2
      exact ⟨rt2, by simp [hrt2]⟩
  · rw [ensure_cachedToken cfg pI pR valHttp r1 r2 now h0,
      ensure_cachedToken cfg pI pR (.response 401 "") r1 r2 now h0, hAfter cfg.refreshToken]
    refine ⟨rfl, fun _ => ?_⟩
    obtain ⟨rt2, hrt2⟩ := hMem cfg.refreshToken
    rw [hAfter cfg.refreshToken] at hrt2
    exact ⟨rt2, hrt2⟩

/-- Witness for C1 (amended) at a concrete input: cached credential
("r", "a", "s", 60), transport failure during validation. -/
theorem c1_witness :
    ensureValidQuestradeClient ⟨"r", "a", "s", 60⟩ "" "x"
        .transportError .transportError .transportError 5 =
      ensureValidQuestradeClient ⟨"r", "a", "s", 60⟩ "" "x"
        (.response 401 "") .transportError .transportError 5 ∧
    (tokenAvailable ⟨"r", "a", "s", 60⟩ "" →
      ∃ rt, Event.refreshCall rt ∈
        (ensureValidQuestradeClient ⟨"r", "a", "s", 60⟩ "" "x"
          .transportError .transportError .transportError 5).2) :=
  c1_indeterminate_validation_proceeds_to_refresh ⟨"r", "a", "s", 60⟩ "" "x"
    .transportError .transportError .transportError 5 .transport
    (by decide) (by decide)

/-- Claim C2 counterexample: a run with all three cached fields present
("a", "s", 60) but no cached refresh token and an empty initial prompt
aborts before any network call, so no validation call is made even
though the cached fields are present — refuting the claim's "in every
run ... if and only if". -/
theorem c2_counterexample :
    cachedPresent ⟨"", "a", "s", 60⟩ ∧
    Event.validateCall ∉
      (ensureValidQuestradeClient ⟨"", "a", "s", 60⟩ "" ""
        (.response 200 "") .transportError .transportError 0).2 := by
  decide

/-- Claim C2 (amended): in every run of the credential-acquisition
operation in which a refresh token is available (cached, or supplied
non-empty at the initial prompt), a live validation call is made if and
only if all three cached fields (access token, api server, positive
expires-in) are present; when made it precedes every refresh call; and
when any cached field is missing the operation goes directly to
refresh, its first network call being a refresh call, with no
validation call at all. -/
theorem c2_validation_iff_cached
    (cfg : Config) (pI pR : String) (v : ValHttp) (r1 r2 : RefreshHttp) (now : Int)
    (hTok : tokenAvailable cfg pI) :
    (Event.validateCall ∈ (ensureValidQuestradeClient cfg pI pR v r1 r2 now).2 ↔
      cachedPresent cfg) ∧
    (cachedPresent cfg → ∃ rest,
      (ensureValidQuestradeClient cfg pI pR v r1 r2 now).2.filter Event.isNetworkCall =
        .validateCall :: rest ∧ Event.validateCall ∉ rest) ∧
    (¬ cachedPresent cfg → ∃ rt2 rest,
      (ensureValidQuestradeClient cfg pI pR v r1 r2 now).2.filter Event.isNetworkCall =
        .refreshCall rt2 :: rest) := by
  by_cases h0 : cfg.refreshToken = ""
  · have hpi : trimSpace pI ≠ "" := hTok.resolve_left (by simp [h0])
    rw [ensure_promptedToken cfg pI pR v r1 r2 now h0 hpi]
    obtain ⟨hIff, hCached, hNo⟩ := afterToken_c2 (trimSpace pI) cfg pR v r1 r2 now
    refine ⟨by simpa using hIff, fun hc => ?_, fun hc => ?_⟩
    · obtain ⟨rest, hrest, hnv⟩ := hCached hc
      refine ⟨rest, ?_, hnv⟩
      simpa [List.filter_cons, Event.isNetworkCall] using hrest
    · obtain ⟨rt2, rest, hrest⟩ := hNo hc
      refine ⟨rt2, rest, ?_⟩
      simpa [List.filter_cons, Event.isNetworkCall] using hrest
  · rw [ensure_cachedToken cfg pI pR v r1 r2 now h0]
    exact afterToken_c2 cfg.refreshToken cfg pR v r1 r2 now

/-- Witness for C2 (amended) at a concrete input: cached refresh token
"r", complete cached credential, validation succeeding. -/
theorem c2_witness :
    tokenAvailable ⟨"r", "a", "s", 60⟩ "" ∧
    ((Event.validateCall ∈ (ensureValidQuestradeClient ⟨"r", "a", "s", 60⟩ "" ""
        (.response 200 "ok") .transportError .transportError 0).2 ↔
      cachedPresent ⟨"r", "a", "s", 60⟩) ∧
    (cachedPresent ⟨"r", "a", "s", 60⟩ → ∃ rest,
      (ensureValidQuestradeClient ⟨"r", "a", "s", 60⟩ "" ""
        (.response 200 "ok") .transportError .transportError 0).2.filter
          Event.isNetworkCall = .validateCall :: rest ∧
        Event.validateCall ∉ rest) ∧
    (¬ cachedPresent ⟨"r", "a", "s", 60⟩ → ∃ rt2 rest,
      (ensureValidQuestradeClient ⟨"r", "a", "s", 60⟩ "" ""
        (.response 200 "ok") .transportError .transportError 0).2.filter
          Event.isNetworkCall = .refreshCall rt2 :: rest)) :=
  ⟨by decide, c2_validation_iff_cached ⟨"r", "a", "s", 60⟩ "" ""
    (.response 200 "ok") .transportError .transportError 0 (by decide)⟩

/-- Any run that reaches the refresh path decomposes into a prefix of
non-refresh, non-prompt-recovery events followed by the refresh phase. -/
theorem ensure_decomp (cfg : Config) (pI pR : String) (v : ValHttp)
    (r1 r2 : RefreshHttp) (now : Int)
    (hTok : tokenAvailable cfg pI)
    (hNoValid : ¬(cachedPresent cfg ∧
      IsAccessTokenValid cfg.accessToken cfg.apiServer v = .ok true)) :
    ∃ (qc : Client) (pre : List Event),
      ensureValidQuestradeClient cfg pI pR v r1 r2 now =
        ((refreshPhase qc pR r1 r2 now).1, pre ++ (refreshPhase qc pR r1 r2 now).2) ∧
      pre.countP Event.isPromptRecovery = 0 ∧
      pre.countP Event.isRefreshCall = 0 := by
  have hAfter : ∀ rt, ∃ (qc : Client) (pre : List Event),
      afterToken rt cfg pR v r1 r2 now =
        ((refreshPhase qc pR r1 r2 now).1, pre ++ (refreshPhase qc pR r1 r2 now).2) ∧
      pre.countP Event.isPromptRecovery = 0 ∧
      pre.countP Event.isRefreshCall = 0 := by
    intro rt
    by_cases hc : cachedPresent cfg
    · have hv : IsAccessTokenValid cfg.accessToken cfg.apiServer v ≠ .ok true :=
        fun hv => hNoValid ⟨hc, hv⟩
      refine ⟨SetAccessToken (NewClient rt) cfg.accessToken cfg.apiServer cfg.expiresIn now,
        [.validateCall], ?_, rfl, rfl⟩
      rw [afterToken_notValid rt cfg pR v r1 r2 now hc hv]
      rfl
    · refine ⟨NewClient rt, [], ?_, rfl, rfl⟩
      rw [afterToken_nocache rt cfg pR v r1 r2 now hc]
      rfl
  by_cases h0 : cfg.refreshToken = ""
  · have hpi : trimSpace pI ≠ "" := hTok.resolve_left (by simp [h0])
    obtain ⟨qc, pre, hEq, hP, hR⟩ := hAfter (trimSpace pI)
    refine ⟨qc, .promptInitial :: .persist (trimSpace pI) "" "" 0 :: pre, ?_, ?_, ?_⟩
    · rw [ensure_promptedToken cfg pI pR v r1 r2 now h0 hpi, hEq]
      rfl
    · simpa [List.countP_cons, Event.isPromptRecovery] using hP
    · simpa [List.countP_cons, Event.isRefreshCall] using hR
  · obtain ⟨qc, pre, hEq, hP, hR⟩ := hAfter cfg.refreshToken
    exact ⟨qc, pre, by rw [ensure_cachedToken cfg pI pR v r1 r2 now h0, hEq], hP, hR⟩

/-- Claim C5: after an initial refresh failure the operation prompts
exactly once; an empty prompted token terminates fatally with no
further refresh call (one refresh call in total); a non-empty prompted
token is persisted and used for exactly one further refresh call (two
in total), and if that retry also fails the operation terminates
fatally — the single recovery prompt is never repeated. -/
theorem c5_single_recovery_prompt
    (cfg : Config) (pI pR : String) (v : ValHttp) (r1 r2 : RefreshHttp) (now : Int)
    (hTok : tokenAvailable cfg pI)
    (hNoValid : ¬(cachedPresent cfg ∧
      IsAccessTokenValid cfg.accessToken cfg.apiServer v = .ok true))
    (hf1 : refreshSucceeds r1 = false) :
    ((ensureValidQuestradeClient cfg pI pR v r1 r2 now).2.countP
        Event.isPromptRecovery = 1) ∧
    (trimSpace pR = "" →
      (ensureValidQuestradeClient cfg pI pR v r1 r2 now).1 = .error .noRefreshToken ∧
      (ensureValidQuestradeClient cfg pI pR v r1 r2 now).2.countP
        Event.isRefreshCall = 1) ∧
    (trimSpace pR ≠ "" →
      Event.persist (trimSpace pR) "" "" 0 ∈
        (ensureValidQuestradeClient cfg pI pR v r1 r2 now).2 ∧
      Event.refreshCall (trimSpace pR) ∈
        (ensureValidQuestradeClient cfg pI pR v r1 r2 now).2 ∧
      (ensureValidQuestradeClient cfg pI pR v r1 r2 now).2.countP
        Event.isRefreshCall = 2 ∧
      (refreshSucceeds r2 = false →
        (ensureValidQuestradeClient cfg pI pR v r1 r2 now).1 = .error .refreshFailed)) := by
  obtain ⟨qc, pre, hEq, hP, hR⟩ := ensure_decomp cfg pI pR v r1 r2 now hTok hNoValid
  by_cases hpr : trimSpace pR = ""
  · rw [hEq, refreshPhase_fail_empty qc pR r1 r2 now hf1 hpr]
    refine ⟨?_, fun _ => ⟨rfl, ?_⟩, fun h => absurd hpr h⟩
    · simp [List.countP_append, List.countP_cons, hP,
        Event.isPromptRecovery, Event.isRefreshCall]
    · simp [List.countP_append, List.countP_cons, hR,
        Event.isPromptRecovery, Event.isRefreshCall]
  · by_cases hf2 : refreshSucceeds r2 = false
    · rw [hEq, refreshPhase_fail_fail qc pR r1 r2 now hf1 hpr hf2]
      refine ⟨?_, fun h => absurd h hpr, fun _ => ⟨?_, ?_, ?_, fun _ => rfl⟩⟩
      · simp [List.countP_append, List.countP_cons, hP,
          Event.isPromptRecovery, Event.isRefreshCall]
      · simp
      · simp
      · simp [List.countP_append, List.countP_cons, hR,
          Event.isPromptRecovery, Event.isRefreshCall]
    · obtain ⟨tr2, hr2, hta⟩ := (refreshSucceeds_true_iff r2).mp
        (by cases h : refreshSucceeds r2 with
          | true => rfl
          | false => exact absurd h hf2)
      rw [hEq, refreshPhase_fail_ok qc pR r1 r2 now tr2 hf1 hpr hr2 hta]
      refine ⟨?_, fun h => absurd h hpr, fun _ => ⟨?_, ?_, ?_, fun h2 => absurd h2 hf2⟩⟩
      · simp [List.countP_append, List.countP_cons, hP,
          Event.isPromptRecovery, Event.isRefreshCall]
      · simp
      · simp
      · simp [List.countP_append, List.countP_cons, hR,
          Event.isPromptRecovery, Event.isRefreshCall]

/-- Witness for C5 at a concrete input: cached refresh token "r", no
cached access token, both refresh attempts failing at the transport,
recovery prompt answering "x". -/
theorem c5_witness :
    tokenAvailable ⟨"r", "", "", 0⟩ "" ∧
    refreshSucceeds .transportError = false ∧
    (((ensureValidQuestradeClient ⟨"r", "", "", 0⟩ "" "x"
        .transportError .transportError .transportError 0).2.countP
        Event.isPromptRecovery = 1) ∧
    (trimSpace "x" = "" →
      (ensureValidQuestradeClient ⟨"r", "", "", 0⟩ "" "x"
        .transportError .transportError .transportError 0).1 = .error .noRefreshToken ∧
      (ensureValidQuestradeClient ⟨"r", "", "", 0⟩ "" "x"
        .transportError .transportError .transportError 0).2.countP
        Event.isRefreshCall = 1) ∧
    (trimSpace "x" ≠ "" →
      Event.persist (trimSpace "x") "" "" 0 ∈
        (ensureValidQuestradeClient ⟨"r", "", "", 0⟩ "" "x"
          .transportError .transportError .transportError 0).2 ∧
      Event.refreshCall (trimSpace "x") ∈
        (ensureValidQuestradeClient ⟨"r", "", "", 0⟩ "" "x"
          .transportError .transportError .transportError 0).2 ∧
      (ensureValidQuestradeClient ⟨"r", "", "", 0⟩ "" "x"
        .transportError .transportError .transportError 0).2.countP
        Event.isRefreshCall = 2 ∧
      (refreshSucceeds .transportError = false →
        (ensureValidQuestradeClient ⟨"r", "", "", 0⟩ "" "x"
          .transportError .transportError .transportError 0).1 =
          .error .refreshFailed))) :=
  ⟨by decide, rfl,
    c5_single_recovery_prompt ⟨"r", "", "", 0⟩ "" "x"
      .transportError .transportError .transportError 0
      (by decide) (by decide) rfl⟩

/-- Claim C3: for every successful refresh response (status 200, parsed
body with a non-empty access token), `Refresh` returns the parsed
response, overwrites `accessToken`, `apiServer` and `expiresAt` (now +
expires-in seconds) with the response values, and overwrites
`refreshToken` if and only if the response's refresh token is
non-empty; an empty response refresh token leaves it unchanged. -/
theorem c3_refresh_overwrites (c : Client) (tr : TokenResponse) (now : Int)
    (hta : tr.accessToken ≠ "") :
    (Refresh c (.response 200 (some tr)) now).2 = .ok tr ∧
    (Refresh c (.response 200 (some tr)) now).1.accessToken = tr.accessToken ∧
    (Refresh c (.response 200 (some tr)) now).1.apiServer = tr.apiServer ∧
    (Refresh c (.response 200 (some tr)) now).1.expiresAt = now + tr.expiresIn ∧
    (tr.refreshToken ≠ "" →
      (Refresh c (.response 200 (some tr)) now).1.refreshToken = tr.refreshToken) ∧
    (tr.refreshToken = "" →
      (Refresh c (.response 200 (some tr)) now).1.refreshToken = c.refreshToken) := by
  rw [Refresh_ok c tr now hta]
  refine ⟨rfl, rfl, rfl, rfl, fun h => ?_, fun h => ?_⟩
  · simp [h]
  · simp [h]

/-- Witness for C3: a 200 response carrying access token "na" and an
empty rotated refresh token, applied to client ("r0", "a0", "s0", 10). -/
theorem c3_witness :
    (⟨"na", "Bearer", 1800, "", "api"⟩ : TokenResponse).accessToken ≠ "" ∧
    ((Refresh ⟨"r0", "a0", "s0", 10⟩
        (.response 200 (some ⟨"na", "Bearer", 1800, "", "api"⟩)) 7).2 =
      .ok ⟨"na", "Bearer", 1800, "", "api"⟩ ∧
    (Refresh ⟨"r0", "a0", "s0", 10⟩
        (.response 200 (some ⟨"na", "Bearer", 1800, "", "api"⟩)) 7).1.accessToken = "na" ∧
    (Refresh ⟨"r0", "a0", "s0", 10⟩
        (.response 200 (some ⟨"na", "Bearer", 1800, "", "api"⟩)) 7).1.apiServer = "api" ∧
    (Refresh ⟨"r0", "a0", "s0", 10⟩
        (.response 200 (some ⟨"na", "Bearer", 1800, "", "api"⟩)) 7).1.expiresAt = 7 + 1800 ∧
    ((⟨"na", "Bearer", 1800, "", "api"⟩ : TokenResponse).refreshToken ≠ "" →
      (Refresh ⟨"r0", "a0", "s0", 10⟩
        (.response 200 (some ⟨"na", "Bearer", 1800, "", "api"⟩)) 7).1.refreshToken = "") ∧
    ((⟨"na", "Bearer", 1800, "", "api"⟩ : TokenResponse).refreshToken = "" →
      (Refresh ⟨"r0", "a0", "s0", 10⟩
        (.response 200 (some ⟨"na", "Bearer", 1800, "", "api"⟩)) 7).1.refreshToken = "r0")) :=
  ⟨by decide, c3_refresh_overwrites ⟨"r0", "a0", "s0", 10⟩
    ⟨"na", "Bearer", 1800, "", "api"⟩ 7 (by decide)⟩

/-- Claim C9: on every failing execution of `Refresh` (transport error,
non-200 status, unparsable body, or a 200 body with an empty access
token) the client's in-memory state is unchanged. -/
theorem c9_refresh_failure_preserves_state (c : Client) (h : RefreshHttp)
    (now : Int) (e : RefreshErr) (he : (Refresh c h now).2 = .error e) :
    (Refresh c h now).1 = c := by
  cases hs : refreshSucceeds h with
  | false =>
    obtain ⟨e2, he2⟩ := Refresh_fail c h now hs
    rw [he2]
  | true =>
    obtain ⟨tr, hr, hta⟩ := (refreshSucceeds_true_iff h).mp hs
    subst hr
    rw [Refresh_ok c tr now hta] at he
    cases he

/-- Witness for C9: an unparsable 500 response leaves ("r", "a", "s", 5)
unchanged. -/
theorem c9_witness :
    (Refresh ⟨"r", "a", "s", 5⟩ (.response 500 none) 3).2 = .error (.badStatus 500) ∧
    (Refresh ⟨"r", "a", "s", 5⟩ (.response 500 none) 3).1 = ⟨"r", "a", "s", 5⟩ :=
  ⟨by decide, c9_refresh_failure_preserves_state ⟨"r", "a", "s", 5⟩
    (.response 500 none) 3 (.badStatus 500) (by decide)⟩

/-- Claim C4: with non-empty token and server, `IsAccessTokenValid`
classifies the validation response: 200 ⇒ (valid, no error); 401 ⇒
(invalid, no error); any other status whose lowercased body contains
both "invalid" and "access" ⇒ (invalid, no error); any other status
with any other body ⇒ an error, never a validity verdict. -/
theorem c4_validation_classification (accessToken apiServer : String)
    (status : Nat) (body : String)
    (hA : accessToken ≠ "") (hS : apiServer ≠ "") :
    (status = 200 →
      IsAccessTokenValid accessToken apiServer (.response status body) = .ok true) ∧
    (status = 401 →
      IsAccessTokenValid accessToken apiServer (.response status body) = .ok false) ∧
    (status ≠ 200 → status ≠ 401 →
      (strContainsSub (strToLower body) "invalid"
        && strContainsSub (strToLower body) "access") = true →
      IsAccessTokenValid accessToken apiServer (.response status body) = .ok false) ∧
    (status ≠ 200 → status ≠ 401 →
      (strContainsSub (strToLower body) "invalid"
        && strContainsSub (strToLower body) "access") = false →
      IsAccessTokenValid accessToken apiServer (.response status body) =
        .error (.unexpectedStatus status body)) := by
  have hns : ¬(accessToken = "" ∨ apiServer = "") := by simp [hA, hS]
  refine ⟨fun h200 => ?_, fun h401 => ?_, fun h200 h401 hcon => ?_, fun h200 h401 hcon => ?_⟩
  · subst h200
    simp [IsAccessTokenValid, hns]
  · subst h401
    simp [IsAccessTokenValid, hns]
  · simp [IsAccessTokenValid, hns, h200, h401, hcon]
  · simp [IsAccessTokenValid, hns, h200, h401, hcon]

/-- Witness for C4: token "t", server "srv"; a 500 response whose body
"Invalid ACCESS token" is classified invalid, and a 200 response is
classified valid. -/
theorem c4_witness :
    IsAccessTokenValid "t" "srv" (.response 500 "Invalid ACCESS token") = .ok false ∧
    IsAccessTokenValid "t" "srv" (.response 200 "x") = .ok true :=
  ⟨(c4_validation_classification "t" "srv" 500 "Invalid ACCESS token"
      (by decide) (by decide)).2.2.1 (by decide) (by decide) (by decide),
   (c4_validation_classification "t" "srv" 200 "x"
      (by decide) (by decide)).1 rfl⟩

/-! ## Model of account fetching (`Client.GetAccounts`, client.go
lines 288-338).  The per-account balance sub-fetches run in parallel in
the source, but each goroutine writes only its own preallocated index
`accountsResp.Accounts[idx].Balances`, so the joined result is the
deterministic index-wise map modelled here; `oracle i` is the outcome
of the sub-fetch for the account at listing index `i` (`none` for any
failure, which the source logs and leaves the `Balances` field nil). -/

/-- `questrade.PerCurrencyBalance`. -/
structure PerCurrencyBalance where
  currency : String
  cash : ℚ
  marketValue : ℚ
  totalEquity : ℚ
  buyingPower : ℚ
  maintenanceExcess : ℚ
  isRealTime : Bool
deriving DecidableEq

/-- `questrade.AccountBalances`. -/
structure AccountBalances where
  perCurrencyBalances : List PerCurrencyBalance
  combinedBalances : List PerCurrencyBalance
deriving DecidableEq

/-- `questrade.Account`; `balances` carries the JSON tag "-" and is nil
after parsing, populated only by `GetAccounts`. -/
structure Account where
  type : String
  number : String
  status : String
  isPrimary : Bool
  isBilling : Bool
  clientAccountType : String
  balances : Option AccountBalances
deriving DecidableEq

/-- Writing one sub-fetch outcome into an account: a failed fetch
leaves the field untouched (the goroutine returns after logging). -/
def applyBalance (ob : Option AccountBalances) (a : Account) : Account :=
  match ob with
  | none => a
  | some b => { a with balances := some b }

/-- The fan-out loop of `GetAccounts`: slot `i` receives the outcome of
sub-fetch `i`, order and length are untouched. -/
def populateBalances (oracle : Nat → Option AccountBalances) :
    Nat → List Account → List Account
  | _, [] => []
  | i, a :: rest => applyBalance (oracle i) a :: populateBalances oracle (i + 1) rest

/-- Outcome of the account-listing HTTP exchange. -/
inductive ListingHttp
  | transportError
  | response (status : Nat) (parsed : Option (List Account))

/-- Failure cases of `GetAccounts` (per-account balance failures are
not among them). -/
inductive FetchErr
  | notAuthenticated
  | transport
  | badStatus (status : Nat)
  | parseFailed
deriving DecidableEq

/-- Model of `Client.GetAccounts`. -/
def GetAccounts (accessToken : String) (h : ListingHttp)
    (oracle : Nat → Option AccountBalances) : Except FetchErr (List Account) :=
  if accessToken = "" then .error .notAuthenticated
  else
    match h with
    | .transportError => .error .transport
    | .response status parsed =>
      if status ≠ 200 then .error (.badStatus status)
      else
        match parsed with
        | none => .error .parseFailed
        | some accounts => .ok (populateBalances oracle 0 accounts)

/-- Forget the balances field (the listing-identity part of an account). -/
def stripBalances (a : Account) : Account :=
  { a with balances := none }

theorem length_populateBalances (o : Nat → Option AccountBalances)
    (n : Nat) (l : List Account) :
    (populateBalances o n l).length = l.length := by
  induction l generalizing n with
  | nil => rfl
  | cons a rest ih => simp [populateBalances, ih]

theorem get_populateBalances (o : Nat → Option AccountBalances)
    (l : List Account) (n i : Nat) (hi : i < l.length)
    (hi2 : i < (populateBalances o n l).length) :
    (populateBalances o n l).get ⟨i, hi2⟩ = applyBalance (o (n + i)) (l.get ⟨i, hi⟩) := by
  induction l generalizing n i with
  | nil => cases hi
  | cons a rest ih =>
    cases i with
    | zero => rfl
    | succ j =>
      have hj : j < rest.length := Nat.lt_of_succ_lt_succ hi
      have hj2 : j < (populateBalances o (n + 1) rest).length := by
        rw [length_populateBalances]; exact hj
      have := ih (n + 1) j hj hj2
      simpa [populateBalances, Nat.add_assoc, Nat.add_comm 1 j] using this

theorem map_strip_populateBalances (o : Nat → Option AccountBalances)
    (n : Nat) (l : List Account) :
    (populateBalances o n l).map stripBalances = l.map stripBalances := by
  induction l generalizing n with
  | nil => rfl
  | cons a rest ih =>
    have hhead : stripBalances (applyBalance (o n) a) = stripBalances a := by
      cases h : o n with
      | none => rfl
      | some b => rfl
    simp [populateBalances, List.map_cons, hhead, ih]

theorem map_strip_of_none (l : List Account)
    (h : ∀ a ∈ l, a.balances = none) : l.map stripBalances = l := by
  induction l with
  | nil => rfl
  | cons a rest ih =>
    have ha : a.balances = none := h a (List.mem_cons_self a rest)
    have hstrip : stripBalances a = a := by
      cases a
      simp_all [stripBalances]
    simp [List.map_cons, hstrip, ih fun x hx => h x (List.mem_cons_of_mem a hx)]

/-- Claim C6: for a successful listing of accounts (all with nil
balances, as parsing leaves them) in which the balance sub-fetch fails
exactly at index `k`, `GetAccounts` returns no top-level error and a
list of the same length and order (identity fields at each index equal
the listing's); the entry at index `k` has nil balances and every other
entry's balances field is populated. -/
theorem c6_one_balance_failure
    (accessToken : String) (accounts : List Account)
    (oracle : Nat → Option AccountBalances) (k : Nat)
    (hTok : accessToken ≠ "")
    (hNil : ∀ a ∈ accounts, a.balances = none)
    (hk : k < accounts.length)
    (hFail : oracle k = none)
    (hOk : ∀ i, i < accounts.length → i ≠ k → (oracle i).isSome = true) :
    ∃ res, GetAccounts accessToken (.response 200 (some accounts)) oracle = .ok res ∧
      res.length = accounts.length ∧
      res.map stripBalances = accounts ∧
      (∀ hk2 : k < res.length, (res.get ⟨k, hk2⟩).balances = none) ∧
      (∀ i, ∀ hi : i < res.length, i ≠ k →
        ((res.get ⟨i, hi⟩).balances).isSome = true) := by
  refine ⟨populateBalances oracle 0 accounts, ?_, ?_, ?_, ?_, ?_⟩
  · simp [GetAccounts, hTok]
  · exact length_populateBalances oracle 0 accounts
  · rw [map_strip_populateBalances, map_strip_of_none accounts hNil]
  · intro hk2
    rw [get_populateBalances oracle accounts 0 k hk hk2]
    simp [applyBalance, hFail]
    exact hNil _ (accounts.get_mem _ _)
  · intro i hi hne
    have hi' : i < accounts.length := by
      rw [← length_populateBalances oracle 0 accounts]; exact hi
    rw [get_populateBalances oracle accounts 0 i hi' hi]
    obtain ⟨b, hb⟩ := Option.isSome_iff_exists.mp (hOk i hi' hne)
    simp [applyBalance, Nat.zero_add, hb]

/-- Witness for C6: two listed accounts, the sub-fetch failing at index
0 and succeeding at index 1. -/
theorem c6_witness :
    ∃ res, GetAccounts "tok"
        (.response 200 (some
          [⟨"Margin", "111", "Active", true, true, "Individual", none⟩,
           ⟨"TFSA", "222", "Active", false, false, "Individual", none⟩]))
        (fun i => if i = 1 then some ⟨[], []⟩ else none) = .ok res ∧
      res.length =
        ([⟨"Margin", "111", "Active", true, true, "Individual", none⟩,
          ⟨"TFSA", "222", "Active", false, false, "Individual", none⟩] :
            List Account).length ∧
      res.map stripBalances =
        [⟨"Margin", "111", "Active", true, true, "Individual", none⟩,
         ⟨"TFSA", "222", "Active", false, false, "Individual", none⟩] ∧
      (∀ hk2 : 0 < res.length, (res.get ⟨0, hk2⟩).balances = none) ∧
      (∀ i, ∀ hi : i < res.length, i ≠ 0 →
        ((res.get ⟨i, hi⟩).balances).isSome = true) :=
  c6_one_balance_failure "tok"
    [⟨"Margin", "111", "Active", true, true, "Individual", none⟩,
     ⟨"TFSA", "222", "Active", false, false, "Individual", none⟩]
    (fun i => if i = 1 then some ⟨[], []⟩ else none) 0
    (by decide) (by decide) (by decide) (by decide)
    (fun i hi hne => by
      match i, hi with
      | 1, _ => rfl)

/-! ## Model of the sync-plan computation (`syncCmd`, mapping.go /
sync.go lines 396-428).  Go map iteration order over the account
mapping is unspecified, so the mapping is passed as a list of
(questradeNumber, ynabID) pairs in some iteration order; the claims
proved below are order-independent. -/

/-- `ynab.Account`. -/
structure YnabAccount where
  id : String
  name : String
  type : String
  balance : Int
  note : String
  closed : Bool
deriving DecidableEq

/-- The linear scan `for i := range qAccounts ... if Number == qNum`
(first match wins). -/
def findQuestradeAccount (qAccounts : List Account) (num : String) : Option Account :=
  qAccounts.find? (fun a => a.number == num)

/-- Lookup in `yAccountsMap`, built by inserting every account keyed by
ID (a later duplicate ID overwrites an earlier one, hence the reverse). -/
def ynabAccountsMap (yAccounts : List YnabAccount) (id : String) : Option YnabAccount :=
  yAccounts.reverse.find? (fun a => a.id == id)

/-- `PlannedTx` from `syncCmd`. -/
structure PlannedTx where
  questradeName : String
  ynabName : String
  ynabAccountID : String
  oldBalance : ℚ
  newBalance : ℚ
  amount : ℚ
deriving DecidableEq

/-- The two skip log lines emitted by the planning loop. -/
inductive SkipLog
  | noBalanceInfo (qNum : String)
  | ynabNotFound (qNum yID : String)
deriving DecidableEq

/-- Model of the planning loop of `syncCmd`: first component the
planned transactions (in iteration order), second the skip log lines.
A zero delta is elided silently (no log line, `continue`). -/
def syncPlan (qAccounts : List Account) (yAccounts : List YnabAccount) :
    List (String × String) → List PlannedTx × List SkipLog
  | [] => ([], [])
  | (qNum, yID) :: rest =>
    let r := syncPlan qAccounts yAccounts rest
    match findQuestradeAccount qAccounts qNum with
    | none => (r.1, .noBalanceInfo qNum :: r.2)
    | some qAcc =>
      match qAcc.balances with
      | none => (r.1, .noBalanceInfo qNum :: r.2)
      | some balances =>
        match balances.combinedBalances with
        | [] => (r.1, .noBalanceInfo qNum :: r.2)
        | cb :: _ =>
          match ynabAccountsMap yAccounts yID with
          | none => (r.1, .ynabNotFound qNum yID :: r.2)
          | some yAcc =>
            let qBalance := cb.totalEquity
            let yBalance := (yAcc.balance : ℚ) / 1000
            let diff := qBalance - yBalance
            if diff = 0 then (r.1, r.2)
            else
              ({ questradeName := qAcc.number ++ " (" ++ qAcc.type ++ ")",
                 ynabName := yAcc.name,
                 ynabAccountID := yAcc.id,
                 oldBalance := yBalance,
                 newBalance := qBalance,
                 amount := diff } :: r.1, r.2)

/-- Modelled from the spec for the refinement claim C7: one mapped pair
is included exactly when the source account exists with a known
combined balance, the destination exists, and the delta is nonzero;
then currentBalance = destination.balanceMinorUnits / 1000, newBalance
= source.totalEquity, delta = newBalance − currentBalance. -/
def specPlanEntry (qAccounts : List Account) (yAccounts : List YnabAccount)
    (p : String × String) : Option PlannedTx :=
  match findQuestradeAccount qAccounts p.1, ynabAccountsMap yAccounts p.2 with
  | some src, some dst =>
    match src.balances with
    | some b =>
      match b.combinedBalances with
      | cb :: _ =>
        let currentBalance : ℚ := (dst.balance : ℚ) / 1000
        let newBalance := cb.totalEquity
        let delta := newBalance - currentBalance
        if delta = 0 then none
        else some { questradeName := src.number ++ " (" ++ src.type ++ ")",
                    ynabName := dst.name,
                    ynabAccountID := dst.id,
                    oldBalance := currentBalance,
                    newBalance := newBalance,
                    amount := delta }
      | [] => none
    | none => none
  | _, _ => none

/-- Modelled from the spec for the refinement claim C7: the plan is
exactly the mapped pairs passing `specPlanEntry`, in order. -/
def specPlan (qAccounts : List Account) (yAccounts : List YnabAccount)
    (mapping : List (String × String)) : List PlannedTx :=
  mapping.filterMap (specPlanEntry qAccounts yAccounts)

/-- An entry the loop skips with a log line: source account missing or
without a known combined balance, or destination account missing. -/
def entrySkipped (qAccounts : List Account) (yAccounts : List YnabAccount)
    (p : String × String) : Bool :=
  match findQuestradeAccount qAccounts p.1 with
  | none => true
  | some a =>
    match a.balances with
    | none => true
    | some b =>
      match b.combinedBalances with
      | [] => true
      | _ :: _ => (ynabAccountsMap yAccounts p.2).isNone

theorem syncPlan_fst (q : List Account) (y : List YnabAccount)
    (m : List (String × String)) :
    (syncPlan q y m).1 = m.filterMap (specPlanEntry q y) := by
  induction m with
  | nil => rfl
  | cons p rest ih =>
    obtain ⟨qNum, yID⟩ := p
    cases hq : findQuestradeAccount q qNum with
    | none =>
      cases hy : ynabAccountsMap y yID <;>
        simp [syncPlan, specPlanEntry, List.filterMap_cons, hq, hy, ih]
    | some qAcc =>
      cases hb : qAcc.balances with
      | none =>
        cases hy : ynabAccountsMap y yID <;>
          simp [syncPlan, specPlanEntry, List.filterMap_cons, hq, hb, hy, ih]
      | some b =>
        cases hcb : b.combinedBalances with
        | nil =>
          cases hy : ynabAccountsMap y yID <;>
            simp [syncPlan, specPlanEntry, List.filterMap_cons, hq, hb, hcb, hy, ih]
        | cons cb cbs =>
          cases hy : ynabAccountsMap y yID with
          | none =>
            simp [syncPlan, specPlanEntry, List.filterMap_cons, hq, hb, hcb, hy, ih]
          | some yAcc =>
            by_cases hd : cb.totalEquity - (yAcc.balance : ℚ) / 1000 = 0
            · simp [syncPlan, specPlanEntry, List.filterMap_cons, hq, hb, hcb, hy, hd, ih]
            · simp [syncPlan, specPlanEntry, List.filterMap_cons, hq, hb, hcb, hy, hd, ih]

theorem syncPlan_snd_length (q : List Account) (y : List YnabAccount)
    (m : List (String × String)) :
    (syncPlan q y m).2.length = m.countP (entrySkipped q y) := by
  induction m with
  | nil => rfl
  | cons p rest ih =>
    obtain ⟨qNum, yID⟩ := p
    cases hq : findQuestradeAccount q qNum with
    | none =>
      simp [syncPlan, entrySkipped, List.countP_cons, hq, ih]
    | some qAcc =>
      cases hb : qAcc.balances with
      | none =>
        simp [syncPlan, entrySkipped, List.countP_cons, hq, hb, ih]
      | some b =>
        cases hcb : b.combinedBalances with
        | nil =>
          simp [syncPlan, entrySkipped, List.countP_cons, hq, hb, hcb, ih]
        | cons cb cbs =>
          cases hy : ynabAccountsMap y yID with
          | none =>
            simp [syncPlan, entrySkipped, List.countP_cons, hq, hb, hcb, hy, ih]
          | some yAcc =>
            by_cases hd : cb.totalEquity - (yAcc.balance : ℚ) / 1000 = 0
            · simp [syncPlan, entrySkipped, List.countP_cons, hq, hb, hcb, hy, hd, ih]
            · simp [syncPlan, entrySkipped, List.countP_cons, hq, hb, hcb, hy, hd, ih]

theorem specPlanEntry_eq_none_of_skipped (q : List Account) (y : List YnabAccount)
    (p : String × String) (h : entrySkipped q y p = true) :
    specPlanEntry q y p = none := by
  obtain ⟨qNum, yID⟩ := p
  cases hq : findQuestradeAccount q qNum with
  | none =>
    cases hy : ynabAccountsMap y yID <;> simp [specPlanEntry, hq, hy]
  | some qAcc =>
    cases hb : qAcc.balances with
    | none =>
      cases hy : ynabAccountsMap y yID <;> simp [specPlanEntry, hq, hb, hy]
    | some b =>
      cases hcb : b.combinedBalances with
      | nil =>
        cases hy : ynabAccountsMap y yID <;> simp [specPlanEntry, hq, hb, hcb, hy]
      | cons cb cbs =>
        cases hy : ynabAccountsMap y yID with
        | none => simp [specPlanEntry, hq, hb, hcb, hy]
        | some yAcc =>
          exfalso
          simp [entrySkipped, hq, hb, hcb, hy] at h

/-- Claim C7: the transaction-sync plan is exactly the mapped pairs
whose source account exists with a known combined balance, whose
destination account exists, and whose delta is nonzero, each entry
carrying currentBalance = destination balance / 1000, newBalance =
source total equity, and delta = newBalance − currentBalance;
concretely, source equity 1000.00 against destination balance 950000
yields the single entry 950.00 → 1000.00 with delta 50.00, and an
equal pair (500.00 vs 500000) is elided. -/
theorem c7_plan_refines_spec :
    (∀ (qAccounts : List Account) (yAccounts : List YnabAccount)
      (mapping : List (String × String)),
      (syncPlan qAccounts yAccounts mapping).1 = specPlan qAccounts yAccounts mapping) ∧
    syncPlan [⟨"Margin", "A1", "Active", true, false, "Individual",
        some ⟨[], [⟨"CAD", 0, 0, 1000, 0, 0, true⟩]⟩⟩]
      [⟨"D1", "Invest", "investment", 950000, "", false⟩]
      [("A1", "D1")] =
      ([⟨"A1 (Margin)", "Invest", "D1", 950, 1000, 50⟩], []) ∧
    (syncPlan [⟨"Margin", "A2", "Active", true, false, "Individual",
        some ⟨[], [⟨"CAD", 0, 0, 500, 0, 0, true⟩]⟩⟩]
      [⟨"D2", "Invest", "investment", 500000, "", false⟩]
      [("A2", "D2")]).1 = [] := by
  refine ⟨fun qAccounts yAccounts mapping => syncPlan_fst qAccounts yAccounts mapping, ?_, ?_⟩
  · norm_num [syncPlan, findQuestradeAccount, ynabAccountsMap, List.find?]
    rfl
  · norm_num [syncPlan, findQuestradeAccount, ynabAccountsMap, List.find?]

/-- Claim C8: a mapping entry whose source account is absent, whose
source balance is unset (or has no combined entry), or whose
destination account is absent is skipped non-fatally: the skip tally
equals the number of such entries, and removing such an entry from the
mapping leaves the computed plan unchanged while the tally drops by
one (the remaining entries are processed the same way). -/
theorem c8_lookup_failures_skipped
    (qAccounts : List Account) (yAccounts : List YnabAccount)
    (m m1 m2 : List (String × String)) (p : String × String)
    (hbad : entrySkipped qAccounts yAccounts p = true) :
    (syncPlan qAccounts yAccounts m).2.length = m.countP (entrySkipped qAccounts yAccounts) ∧
    (syncPlan qAccounts yAccounts (m1 ++ p :: m2)).1 =
      (syncPlan qAccounts yAccounts (m1 ++ m2)).1 ∧
    (syncPlan qAccounts yAccounts (m1 ++ p :: m2)).2.length =
      (syncPlan qAccounts yAccounts (m1 ++ m2)).2.length + 1 := by
  have hnone := specPlanEntry_eq_none_of_skipped qAccounts yAccounts p hbad
  refine ⟨syncPlan_snd_length qAccounts yAccounts m, ?_, ?_⟩
  · rw [syncPlan_fst, syncPlan_fst]
    simp [List.filterMap_append, List.filterMap_cons, hnone]
  · rw [syncPlan_snd_length, syncPlan_snd_length]
    simp [List.countP_append, List.countP_cons, hbad]
    omega

/-- Witness for C8: the entry ("A9", "D9") refers to an unknown source
account and is skipped, counted, and removable without changing the
plan. -/
theorem c8_witness :
    entrySkipped [] [] ("A9", "D9") = true ∧
    ((syncPlan [] [] [("A9", "D9")]).2.length =
      List.countP (entrySkipped [] []) [("A9", "D9")] ∧
    (syncPlan [] [] ([] ++ ("A9", "D9") :: [])).1 = (syncPlan [] [] ([] ++ [])).1 ∧
    (syncPlan [] [] ([] ++ ("A9", "D9") :: [])).2.length =
      (syncPlan [] [] ([] ++ [])).2.length + 1) :=
  ⟨by decide, c8_lookup_failures_skipped [] [] [("A9", "D9")] [] [] ("A9", "D9") (by decide)⟩

/-! ## Model of `updateConfigJSON` (config.go lines 180-210).  The
existing `config.json` is the parsed map `m` (key to JSON value; an
absent file reads as the empty map); the function conditionally
overwrites the four questrade keys and marshals the result back. -/

/-- JSON values as stored in the decoded `map[string]interface` config
(string and integer values are the ones the function writes; `other`
stands for anything else an existing file may hold). -/
inductive JVal
  | str (s : String)
  | num (n : Int)
  | other
deriving DecidableEq

/-- Map update `m[k] = v`. -/
def mapSet (m : String → Option JVal) (k : String) (v : JVal) :
    String → Option JVal :=
  fun k2 => if k2 = k then some v else m k2

/-- Model of `updateConfigJSON`: each token key is overwritten only
when the new value is non-empty, the expiry only when positive; all
other keys of the existing map are carried through to the written file. -/
def updateConfigJSON (m : String → Option JVal)
    (refreshToken accessToken apiServer : String) (expiresIn : Int) :
    String → Option JVal :=
  let m1 := if refreshToken ≠ ""
    then mapSet m "questrade_refresh_token" (.str refreshToken) else m
  let m2 := if accessToken ≠ ""
    then mapSet m1 "questrade_access_token" (.str accessToken) else m1
  let m3 := if apiServer ≠ ""
    then mapSet m2 "questrade_api_server" (.str apiServer) else m2
  if expiresIn > 0 then mapSet m3 "questrade_expires_in" (.num expiresIn) else m3

/-- Claim C10: `updateConfigJSON` is a partial update that never erases
persisted data: each of the refresh-token, access-token and api-server
keys is overwritten exactly when the corresponding new value is
non-empty, the expires-in key exactly when the new value is positive,
and every other key of the existing config (for example the YNAB
fields) is preserved unchanged in the written file. -/
theorem c10_partial_update (m : String → Option JVal)
    (rt acc srv : String) (ei : Int) :
    (∀ k, k ≠ "questrade_refresh_token" → k ≠ "questrade_access_token" →
      k ≠ "questrade_api_server" → k ≠ "questrade_expires_in" →
      updateConfigJSON m rt acc srv ei k = m k) ∧
    (rt ≠ "" →
      updateConfigJSON m rt acc srv ei "questrade_refresh_token" = some (.str rt)) ∧
    (rt = "" →
      updateConfigJSON m rt acc srv ei "questrade_refresh_token" =
        m "questrade_refresh_token") ∧
    (acc ≠ "" →
      updateConfigJSON m rt acc srv ei "questrade_access_token" = some (.str acc)) ∧
    (acc = "" →
      updateConfigJSON m rt acc srv ei "questrade_access_token" =
        m "questrade_access_token") ∧
    (srv ≠ "" →
      updateConfigJSON m rt acc srv ei "questrade_api_server" = some (.str srv)) ∧
    (srv = "" →
      updateConfigJSON m rt acc srv ei "questrade_api_server" =
        m "questrade_api_server") ∧
    (ei > 0 →
      updateConfigJSON m rt acc srv ei "questrade_expires_in" = some (.num ei)) ∧
    (ei ≤ 0 →
      updateConfigJSON m rt acc srv ei "questrade_expires_in" =
        m "questrade_expires_in") := by
  refine ⟨?_, ?_, ?_, ?_, ?_, ?_, ?_, ?_, ?_⟩
  · intro k h1 h2 h3 h4
    simp only [updateConfigJSON, mapSet]
    split_ifs <;> simp [mapSet, h1, h2, h3, h4]
  · intro h
    simp only [updateConfigJSON, mapSet]
    split_ifs <;> simp_all [mapSet]
  · intro h
    simp only [updateConfigJSON, mapSet]
    split_ifs <;> simp_all [mapSet]
  · intro h
    simp only [updateConfigJSON, mapSet]
    split_ifs <;> simp_all [mapSet]
  · intro h
    simp only [updateConfigJSON, mapSet]
    split_ifs <;> simp_all [mapSet]
  · intro h
    simp only [updateConfigJSON, mapSet]
    split_ifs <;> simp_all [mapSet]
  · intro h
    simp only [updateConfigJSON, mapSet]
    split_ifs <;> simp_all [mapSet]
  · intro h
    simp only [updateConfigJSON, mapSet]
    split_ifs <;> simp_all [mapSet]
  · intro h
    have h2 : ¬ ei > 0 := by omega
    simp only [updateConfigJSON, mapSet]
    split_ifs <;> simp_all [mapSet]

/-- Witness for C10: over an existing config holding a YNAB key, the
update with refresh token "r", empty access token, server "s" and
expiry 0 preserves the YNAB key and the untouched questrade keys and
overwrites the refresh-token key. -/
theorem c10_witness :
    updateConfigJSON
      (fun k => if k = "ynab_access_token" then some (.str "y") else none)
      "r" "" "s" 0 "ynab_access_token" = some (.str "y") ∧
    updateConfigJSON
      (fun k => if k = "ynab_access_token" then some (.str "y") else none)
      "r" "" "s" 0 "questrade_refresh_token" = some (.str "r") ∧
    updateConfigJSON
      (fun k => if k = "ynab_access_token" then some (.str "y") else none)
      "r" "" "s" 0 "questrade_access_token" = none ∧
    updateConfigJSON
      (fun k => if k = "ynab_access_token" then some (.str "y") else none)
      "r" "" "s" 0 "questrade_expires_in" = none := by
  obtain ⟨hgen, hrt, _, _, hacc0, _, _, _, hei0⟩ := c10_partial_update
    (fun k => if k = "ynab_access_token" then some (.str "y") else none) "r" "" "s" 0
  exact ⟨(hgen "ynab_access_token" (by decide) (by decide) (by decide) (by decide)).trans rfl,
    hrt (by decide), (hacc0 rfl).trans rfl, (hei0 (by decide)).trans rfl⟩

end QYnab
